import Mathlib

/-!
Verification of the image-to-video pipeline of `videos_from_pictures`
(`imgg.py` and `videos_from_pictures.py`) against its design document.

The two Python modules are shallowly embedded below.  Machine filesystem
effects (`os.walk`, `os.path.getmtime`, `PIL.Image.open`, the save dialog
and the encoder) are modelled as explicit inputs in an `Env` record, and
the pipeline functions are translated statement by statement from the
source.  Python float arithmetic on `aspect_ratio = w / h` is modelled by
exact rational arithmetic, and Python `int(...)` applied to the
non-negative quantities involved is the rational floor.
-/

/-- An RGB color, one channel per component. -/
abbrev Color : Type := Nat × Nat × Nat

/-- The opaque black background color used by `Image.new('RGB', resolution, 'black')`. -/
def black : Color := (0, 0, 0)

/-- A decoded raster image: dimensions plus a pixel lookup, as exposed by
`PIL.Image` (`img.width`, `img.height`, pixel access). -/
structure Img where
  width : Nat
  height : Nat
  px : Nat → Nat → Color

/-- Drawn dimensions computed by `create_video_from_images` (both modules,
identical code): `aspect_ratio = img.width / img.height`; if
`aspect_ratio > 1` then `new_width = width; new_height = int(width / aspect_ratio)`
else `new_height = height; new_width = int(height * aspect_ratio)`.
All quantities are non-negative, so Python `int` truncation is the floor. -/
def newDims (w h W H : Nat) : Nat × Nat :=
  if 1 < (w : ℚ) / (h : ℚ) then
    (W, Int.toNat ⌊(W : ℚ) / ((w : ℚ) / (h : ℚ))⌋)
  else
    (Int.toNat ⌊(H : ℚ) * ((w : ℚ) / (h : ℚ))⌋, H)

/-- Paste offset computed by `position = ((width - new_width) // 2, (height - new_height) // 2)`.
Python `//` on integers is floor division (`Int.fdiv`), also for negative
numerators. -/
def pastePos (W H nw nh : Nat) : Int × Int :=
  (((W : Int) - (nw : Int)).fdiv 2, ((H : Int) - (nh : Int)).fdiv 2)

/-- Truncated floor of a quotient of naturals is natural division. -/
theorem toNat_floor_nat_div (m k : Nat) : Int.toNat ⌊(m : ℚ) / (k : ℚ)⌋ = m / k := by
  rw [Int.floor_toNat, Nat.floor_div_eq_div]

/-- The aspect-ratio comparison `aspect_ratio > 1` holds exactly when the image is
strictly wider than tall. -/
theorem aspect_gt_one_iff (w h : Nat) (hh : 0 < h) :
    (1 < (w : ℚ) / (h : ℚ)) ↔ h < w := by
  have hq : (0 : ℚ) < (h : ℚ) := by exact_mod_cast hh
  rw [one_lt_div hq]
  exact_mod_cast Iff.rfl

/-- Executable characterization of `newDims`: the rational-floor computation of the
source reduces to natural division. -/
theorem newDims_eq (w h W H : Nat) (hh : 0 < h) :
    newDims w h W H = if h < w then (W, W * h / w) else (H * w / h, H) := by
  unfold newDims
  by_cases hc : h < w
  · rw [if_pos ((aspect_gt_one_iff w h hh).mpr hc), if_pos hc]
    rw [div_div_eq_mul_div]
    rw [show ((W : ℚ) * (h : ℚ)) = ((W * h : Nat) : ℚ) by push_cast; ring]
    rw [toNat_floor_nat_div]
  · rw [if_neg (fun hlt => hc ((aspect_gt_one_iff w h hh).mp hlt)), if_neg hc]
    rw [show ((H : ℚ) * ((w : ℚ) / (h : ℚ))) = ((H * w : Nat) : ℚ) / (h : ℚ) by
      push_cast; ring]
    rw [toNat_floor_nat_div]

/-- PIL `Image.new('RGB', (W, H), 'black')`: an opaque black buffer. -/
def blackBg (W H : Nat) : Img :=
  ⟨W, H, fun _ _ => black⟩

/-- PIL `background.paste(img, pos)`: pixels inside the pasted rectangle come
from the pasted image, the rest of the background is untouched; parts of the
pasted image that fall outside the background are cropped. -/
def compositeAt (bg : Img) (img : Img) (pos : Int × Int) : Img :=
  ⟨bg.width, bg.height, fun x y =>
    if pos.1 ≤ (x : Int) ∧ (x : Int) < pos.1 + (img.width : Int) ∧
       pos.2 ≤ (y : Int) ∧ (y : Int) < pos.2 + (img.height : Int) then
      img.px ((x : Int) - pos.1).toNat ((y : Int) - pos.2).toNat
    else bg.px x y⟩

/-- Frame Transform of `create_video_from_images`, for one decoded image:
compute `newDims`, resample (`img.resize(..., Image.LANCZOS)`, abstracted as
the `resample` argument), and paste centered onto a black background.
`resample` stands for PIL's Lanczos resampler; the development only relies on
its contract that the output has the requested dimensions. -/
def letterbox (resample : Img → Nat → Nat → Img) (img : Img) (W H : Nat) : Img :=
  let nd := newDims img.width img.height W H
  compositeAt (blackBg W H) (resample img nd.1 nd.2) (pastePos W H nd.1 nd.2)

/-- Contract of PIL `Image.resize`: the result has exactly the requested size. -/
def ResampleSpec (resample : Img → Nat → Nat → Img) : Prop :=
  ∀ i a b, (resample i a b).width = a ∧ (resample i a b).height = b

/-- A node of the scanned directory tree: a plain file or a subdirectory with
its entries, listed in the order the operating system reports them. -/
inductive Entry where
  | file : String → Entry
  | dir : String → List Entry → Entry

/-- Model of `os.path.join(root, filename)` on POSIX-style relative names. -/
def joinPath (root name : String) : String := root ++ "/" ++ name

/-- Suffix test on character lists: `l` ends with `suf`. -/
def endsWithChars (l suf : List Char) : Bool :=
  decide (suf.length ≤ l.length) && (l.drop (l.length - suf.length) == suf)

/-- Filter of `find_images` (both modules):
`filename.lower().endswith(('.png', '.jpg', '.jpeg', '.gif'))`.  Python
`str.lower` is modelled by per-character ASCII lowercasing, which agrees with
it on the ASCII file names involved. -/
def isImageName (s : String) : Bool :=
  [".png", ".jpg", ".jpeg", ".gif"].any fun suf =>
    endsWithChars (s.data.map Char.toLower) suf.data

/-- Names of the plain files among a directory's entries, as `os.walk` reports
them in its `files` component. -/
def fileNames (es : List Entry) : List String :=
  es.filterMap fun e =>
    match e with
    | .file n => some n
    | .dir _ _ => none

/-- Subdirectories among a directory's entries, as `os.walk` recurses into
them in order. -/
def subdirsOf (es : List Entry) : List (String × List Entry) :=
  es.filterMap fun e =>
    match e with
    | .file _ => none
    | .dir n sub => some (n, sub)

/-- Entries of a subdirectory are structurally smaller than the entry list
containing that subdirectory. -/
theorem subdir_size_lt (es : List Entry) (n : String) (sub : List Entry)
    (hmem : (n, sub) ∈ subdirsOf es) : sizeOf sub < sizeOf es := by
  induction es with
  | nil => simp [subdirsOf] at hmem
  | cons e es ih =>
    cases e with
    | file m =>
      simp only [subdirsOf, List.filterMap_cons] at hmem
      have := ih (by simpa [subdirsOf] using hmem)
      simp only [List.cons.sizeOf_spec]
      omega
    | dir m sub2 =>
      simp only [subdirsOf, List.filterMap_cons, List.mem_cons] at hmem
      rcases hmem with h | h
      · obtain ⟨h1, h2⟩ := Prod.mk.injEq .. ▸ h
        subst h2
        simp only [List.cons.sizeOf_spec, Entry.dir.sizeOf_spec]
        omega
      · have := ih (by simpa [subdirsOf] using h)
        simp only [List.cons.sizeOf_spec]
        omega

/-- Model of `os.walk(folder_path)` (top-down): one `(dirpath, filenames)`
pair per visited directory, the root first, then each subdirectory subtree in
listing order. -/
def walkTriples (root : String) (es : List Entry) : List (String × List String) :=
  (root, fileNames es) ::
    (subdirsOf es).attach.flatMap fun p =>
      walkTriples (joinPath root p.1.1) p.1.2
termination_by sizeOf es
decreasing_by
  exact subdir_size_lt es p.1.1 p.1.2 (by simpa using p.2)

/-- Body of the `for filename in files` loop of `find_images`: the matched
file paths contributed by one visited directory. -/
def matchedIn (t : String × List String) : List String :=
  t.2.filterMap fun filename =>
    if isImageName filename then some (joinPath t.1 filename) else none

/-- Every file under the root, tagged with its directory path, with no
filtering applied. -/
def allFilesUnder (root : String) (es : List Entry) : List (String × String) :=
  (walkTriples root es).flatMap fun t => t.2.map fun n => (t.1, n)

namespace Imgg

/-- Translation of `imgg.find_images`: walk the tree and collect the paths of
files whose lowercased name ends with one of the four recognized suffixes. -/
def find_images (rootPath : String) (es : List Entry) : List String :=
  (walkTriples rootPath es).flatMap matchedIn

end Imgg

namespace Vfp

/-- Per-directory step of `videos_from_pictures.find_images`: bump the folder
counter, append this directory's matched paths, and emit one progress
snapshot `(num_folders_scanned, len(image_files))`.  The wall-clock elapsed
time of the snapshot and the dead-local `format_counts` dictionary are not
modelled. -/
def scanStep (st : Nat × List String × List (Nat × Nat))
    (t : String × List String) : Nat × List String × List (Nat × Nat) :=
  let folders := st.1 + 1
  let files := st.2.1 ++ matchedIn t
  (folders, files, st.2.2 ++ [(folders, files.length)])

/-- Translation of `videos_from_pictures.find_images`: same walk and filter as
`imgg.find_images`, threading the progress counters; returns the matched
paths together with the emitted progress snapshots. -/
def find_images (rootPath : String) (es : List Entry) :
    List String × List (Nat × Nat) :=
  let st := (walkTriples rootPath es).foldl scanStep (0, [], [])
  (st.2.1, st.2.2)

end Vfp

/-- Terminal outcome of one conversion run (§3 `ConversionResult`). -/
inductive ConversionResult where
  | success : String → ConversionResult
  | noImagesFound : ConversionResult
  | cancelled : ConversionResult
  | failure : ConversionResult
deriving DecidableEq

/-- Observable result of `create_video_from_images`: the outcome, whether
`clip.write_videofile` was invoked, and the path written on success. -/
structure RunOutcome where
  result : ConversionResult
  encoderCalled : Bool
  written : Option String
deriving DecidableEq

/-- Ambient machine state consumed by one run: the directory tree under the
root, whether the root is a directory, the per-path `os.path.getmtime`
(`none` models a raised `OSError`), the per-path decoder `PIL.Image.open`
(`none` models a decode failure), the resampling filter, the user's answer to
the save dialog (`none` models cancellation), and whether the encoder
succeeds. -/
structure Env where
  rootPath : String
  tree : List Entry
  isDir : Bool
  mtime : String → Option Nat
  decode : String → Option Img
  resample : Img → Nat → Nat → Img
  savePath : Option String
  encodeOk : Bool

/-- Timestamp-reading loop of `create_video_from_images`: each discovered path
is paired with its modification time; a path whose `getmtime` raises is
logged and skipped. -/
def timestamped (env : Env) (paths : List String) : List (String × Nat) :=
  paths.filterMap fun p => (env.mtime p).map fun t => (p, t)

/-- One iteration of the transform loop: `Image.open` (decode failure raises,
modelled as `none`), then `width, height = resolution` (raises unless the
parsed resolution has exactly two components), then scale and letterbox.
Target dimensions are taken through `Int.toNat`; every claim below constrains
them to be positive. -/
def transformFile (env : Env) (res : List Int) (p : String) : Option Img :=
  match env.decode p with
  | none => none
  | some img =>
    match res with
    | [W, H] => some (letterbox env.resample img W.toNat H.toNat)
    | _ => none

/-- The transform loop over the ordered files.  The `try` block of the source
wraps the whole loop, so the first raising iteration aborts the remaining
ones. -/
def transformAll (env : Env) (res : List Int) :
    List (String × Nat) → Option (List Img)
  | [] => some []
  | pt :: rest =>
    match transformFile env res pt.1 with
    | none => none
    | some f => (transformAll env res rest).map (f :: ·)

/-- Stable insertion used to model Python's stable `list.sort(key=...)`: the
inserted element goes in front of the first element whose timestamp is not
strictly smaller, so an element inserted later than its equals in the
original list order stays behind them. -/
def insertByTime (x : String × Nat) : List (String × Nat) → List (String × Nat)
  | [] => [x]
  | y :: ys => if y.2 < x.2 then y :: insertByTime x ys else x :: y :: ys

/-- Model of `image_files.sort(key=lambda x: x[1])`: Python's `list.sort` is a
stable ascending sort by the key. -/
def sortByTime : List (String × Nat) → List (String × Nat)
  | [] => []
  | x :: xs => insertByTime x (sortByTime xs)

namespace Imgg

/-- Translation of `imgg.create_video_from_images`: discover, timestamp and
skip unreadable files, bail out with the no-images dialog on an empty list,
sort by timestamp, transform every file inside one `try` block, ask for a
save path (cancellation returns silently), and invoke the encoder.  The
`extension` argument only seeds the save dialog and has no further effect. -/
def create_video_from_images (env : Env) (res : List Int) (_extension : String) :
    RunOutcome :=
  let all_image_paths := find_images env.rootPath env.tree
  let image_files := timestamped env all_image_paths
  if image_files.isEmpty then ⟨.noImagesFound, false, none⟩
  else
    match transformAll env res (sortByTime image_files) with
    | none => ⟨.failure, false, none⟩
    | some _frames =>
      match env.savePath with
      | none => ⟨.cancelled, false, none⟩
      | some p =>
        if env.encodeOk then ⟨.success p, true, some p⟩ else ⟨.failure, true, none⟩

/-- The ordered frame sequence assembled by `imgg.create_video_from_images`
(`none` when the transform loop raised). -/
def framesOf (env : Env) (res : List Int) : Option (List Img) :=
  transformAll env res
    (sortByTime (timestamped env (find_images env.rootPath env.tree)))

end Imgg

namespace Vfp

/-- Translation of `videos_from_pictures.create_video_from_images`: the body
is textually identical to the one in `imgg.py`; only its `find_images` also
reports progress. -/
def create_video_from_images (env : Env) (res : List Int) (_extension : String) :
    RunOutcome :=
  let all_image_paths := (find_images env.rootPath env.tree).1
  let image_files := timestamped env all_image_paths
  if image_files.isEmpty then ⟨.noImagesFound, false, none⟩
  else
    match transformAll env res (sortByTime image_files) with
    | none => ⟨.failure, false, none⟩
    | some _frames =>
      match env.savePath with
      | none => ⟨.cancelled, false, none⟩
      | some p =>
        if env.encodeOk then ⟨.success p, true, some p⟩ else ⟨.failure, true, none⟩

/-- The ordered frame sequence assembled by
`videos_from_pictures.create_video_from_images`. -/
def framesOf (env : Env) (res : List Int) : Option (List Img) :=
  transformAll env res
    (sortByTime (timestamped env (find_images env.rootPath env.tree).1))

end Vfp

/-- Value of a digit string, as Python `int` computes it. -/
def digitsVal (l : List Char) : Nat :=
  l.foldl (fun a c => a * 10 + (c.toNat - 48)) 0

/-- Model of Python `int(field)` on the strings the resolution field can
contain: an optional sign followed by a non-empty run of decimal digits
parses to that integer, anything else raises `ValueError` (`none`). -/
def pyIntChars (l : List Char) : Option Int :=
  match l with
  | [] => none
  | '-' :: rest =>
    if rest ≠ [] ∧ rest.all Char.isDigit then some (-(digitsVal rest : Int)) else none
  | '+' :: rest =>
    if rest ≠ [] ∧ rest.all Char.isDigit then some ((digitsVal rest : Int)) else none
  | l =>
    if l.all Char.isDigit then some ((digitsVal l : Int)) else none

/-- Model of Python `s.split('x')` on character lists: maximal runs between
separator occurrences, keeping empty fields. -/
def splitOnSep (sep : Char) : List Char → List (List Char)
  | [] => [[]]
  | c :: cs =>
    let r := splitOnSep sep cs
    if c = sep then [] :: r
    else
      match r with
      | [] => [[c]]
      | h :: t => (c :: h) :: t

/-- Model of `tuple(map(int, resolution_str.split('x')))`: every
`'x'`-separated field must parse as an integer; the tuple keeps whatever
arity the split produced. -/
def parseResolution (s : String) : Option (List Int) :=
  (splitOnSep 'x' s.data).mapM pyIntChars

/-- Outcome of `start_conversion` as observable through its dialogs: the
resolution-format error, the bad-folder error, or a completed call into the
pipeline. -/
inductive StartOutcome where
  | invalidResolution : StartOutcome
  | invalidRoot : StartOutcome
  | ran : RunOutcome → StartOutcome
deriving DecidableEq

/-- Translation of `imgg.start_conversion`: parse the resolution string (a
`ValueError` here shows the resolution-format error before any other work),
then check `os.path.isdir`, then run the pipeline. -/
def start_conversion (env : Env) (resolution_str : String) (ext : String) :
    StartOutcome :=
  match parseResolution resolution_str with
  | none => .invalidResolution
  | some res =>
    if env.isDir then .ran (Imgg.create_video_from_images env res ext)
    else .invalidRoot

/-- C1 counterexample: a 1x1 (square) image at target resolution 2x1 is drawn
at 1x1, not at the full 2x1 canvas, because the square branch computes
`new_width = int(height * aspect_ratio)` from the target height, so the claim
`newWidth == W` fails whenever `W ≠ H`. -/
theorem c1_counterexample :
    newDims 1 1 2 1 = (1, 1) ∧ newDims 1 1 2 1 ≠ (2, 1) := by
  rw [newDims_eq 1 1 2 1 (by decide)]
  decide

/-- C1 amended: for a square image (`w == h`) and positive target resolution,
the Frame Transform computes `newHeight = H` and `newWidth = H` as well (not
`W`); in particular the square image exactly fills the canvas precisely when
the target resolution is itself square. -/
theorem c1_square_dims (w W H : Nat) (hw : 0 < w) :
    newDims w w W H = (H, H) ∧ (W = H → newDims w w W H = (W, H)) := by
  have h := newDims_eq w w W H hw
  rw [if_neg (lt_irrefl w), Nat.mul_div_cancel H hw] at h
  exact ⟨h, fun hWH => by rw [h, hWH]⟩

/-- C1 witness: a 2x2 image at target 3x5 is drawn at 5x5. -/
theorem c1_square_dims_witness : newDims 2 2 3 5 = (5, 5) :=
  (c1_square_dims 2 3 5 (by decide)).1

/-- C2 confirmed: with `aspectRatio = w / h`, the wide branch (`aspectRatio > 1`,
equivalently `h < w`) yields `newWidth = W` and
`newHeight = floor(W / aspectRatio) = W * h / w`, and the other branch yields
`newHeight = H` and `newWidth = floor(H * aspectRatio) = H * w / h`; natural
division is exactly the floor of the rational quotient
(`toNat_floor_nat_div`). -/
theorem c2_branch_formulas (w h W H : Nat) (hw : 0 < w) (hh : 0 < h) :
    ((1 < (w : ℚ) / (h : ℚ)) ↔ h < w) ∧
    (h < w → newDims w h W H = (W, W * h / w)) ∧
    (w ≤ h → newDims w h W H = (H * w / h, H)) := by
  refine ⟨aspect_gt_one_iff w h hh, ?_, ?_⟩ <;> intro hc <;>
    rw [newDims_eq w h W H hh]
  · rw [if_pos hc]
  · rw [if_neg (by omega)]

/-- C2 witness: a 3x2 image at target 10x7 is wide, drawn at 10 x (10*2/3) = 10x6. -/
theorem c2_branch_formulas_witness : newDims 3 2 10 7 = (10, 10 * 2 / 3) :=
  (c2_branch_formulas 3 2 10 7 (by decide) (by decide)).2.1 (by decide)

/-- C3 counterexample: a 1x1 image at target resolution 100x400 is drawn at
400x400, whose width exceeds the 100-pixel frame width, so the drawn content
does not lie entirely inside the frame: the code compares the aspect ratio
with 1 instead of with `W / H`, so a target taller (or wider) than the image
ratio overflows the canvas. -/
theorem c3_counterexample :
    (newDims 1 1 100 400).1 = 400 ∧ ¬ (newDims 1 1 100 400).1 ≤ 100 := by
  rw [newDims_eq 1 1 100 400 (by decide)]
  decide

/-- C3 amended: the drawn dimensions preserve the aspect ratio within integer
rounding (`|nw * h - nh * w| < max w h`); the drawn content lies inside the
frame only under the additional fit condition that the target is not more
oblong than the image in the direction chosen by the branch (automatic, for
example, when the image and the frame are equally oriented); and every frame
pixel outside the drawn rectangle keeps the opaque black background color. -/
theorem c3_letterbox_amended (resample : Img → Nat → Nat → Img)
    (hres : ResampleSpec resample) (img : Img) (W H : Nat)
    (hw : 0 < img.width) (hh : 0 < img.height) :
    (((newDims img.width img.height W H).1 * (img.height : Int) -
      (newDims img.width img.height W H).2 * (img.width : Int)).natAbs <
        max img.width img.height) ∧
    ((if img.height < img.width then W * img.height < (H + 1) * img.width
      else H * img.width < (W + 1) * img.height) →
      (newDims img.width img.height W H).1 ≤ W ∧
      (newDims img.width img.height W H).2 ≤ H) ∧
    (∀ x y : Nat, x < W → y < H →
      ¬ ((pastePos W H (newDims img.width img.height W H).1
            (newDims img.width img.height W H).2).1 ≤ (x : Int) ∧
         (x : Int) < (pastePos W H (newDims img.width img.height W H).1
            (newDims img.width img.height W H).2).1 +
              (newDims img.width img.height W H).1 ∧
         (pastePos W H (newDims img.width img.height W H).1
            (newDims img.width img.height W H).2).2 ≤ (y : Int) ∧
         (y : Int) < (pastePos W H (newDims img.width img.height W H).1
            (newDims img.width img.height W H).2).2 +
              (newDims img.width img.height W H).2) →
      (letterbox resample img W H).px x y = black) := by
  by_cases hc : img.height < img.width
  · have hnd : newDims img.width img.height W H =
        (W, W * img.height / img.width) := by
      rw [newDims_eq img.width img.height W H hh, if_pos hc]
    have hwpos : 0 < img.width := hw
    rw [hnd]
    refine ⟨?_, ?_, ?_⟩
    · have h1 : W * img.height / img.width * img.width ≤ W * img.height :=
        Nat.div_mul_le_self _ _
      have h2 : W * img.height <
          (W * img.height / img.width + 1) * img.width :=
        (Nat.div_lt_iff_lt_mul hwpos).mp (Nat.lt_succ_self _)
      have h2s : W * img.height <
          W * img.height / img.width * img.width + img.width := by
        rw [Nat.succ_mul] at h2; exact h2
      have h3 : img.width ≤ max img.width img.height := le_max_left _ _
      simp only []
      omega
    · intro hfit
      rw [if_pos hc] at hfit
      refine ⟨le_refl W, ?_⟩
      have := (Nat.div_lt_iff_lt_mul hwpos).mpr hfit
      omega
    · intro x y hx hy hout
      simp only [letterbox, compositeAt, blackBg, hnd]
      rw [(hres img W (W * img.height / img.width)).1,
        (hres img W (W * img.height / img.width)).2]
      simp only [] at hout
      exact if_neg hout
  · have hnd : newDims img.width img.height W H =
        (H * img.width / img.height, H) := by
      rw [newDims_eq img.width img.height W H hh, if_neg hc]
    have hhpos : 0 < img.height := hh
    rw [hnd]
    refine ⟨?_, ?_, ?_⟩
    · have h1 : H * img.width / img.height * img.height ≤ H * img.width :=
        Nat.div_mul_le_self _ _
      have h2 : H * img.width <
          (H * img.width / img.height + 1) * img.height :=
        (Nat.div_lt_iff_lt_mul hhpos).mp (Nat.lt_succ_self _)
      have h2s : H * img.width <
          H * img.width / img.height * img.height + img.height := by
        rw [Nat.succ_mul] at h2; exact h2
      have h3 : img.height ≤ max img.width img.height := le_max_right _ _
      simp only []
      omega
    · intro hfit
      rw [if_neg hc] at hfit
      refine ⟨?_, le_refl H⟩
      have := (Nat.div_lt_iff_lt_mul hhpos).mpr hfit
      omega
    · intro x y hx hy hout
      simp only [letterbox, compositeAt, blackBg, hnd]
      rw [(hres img (H * img.width / img.height) H).1,
        (hres img (H * img.width / img.height) H).2]
      simp only [] at hout
      exact if_neg hout

/-- A dimension-respecting resampler used to witness the transform theorems. -/
def pointResample : Img → Nat → Nat → Img :=
  fun i a b => ⟨a, b, i.px⟩

/-- The witness resampler satisfies the PIL resize contract. -/
theorem pointResample_spec : ResampleSpec pointResample :=
  fun _ _ _ => ⟨rfl, rfl⟩

/-- C3 witness: a 4x2 image letterboxed to 8x8 is drawn at 8x4 starting at
row 2; the frame pixel (0, 7) lies below the drawn content and is black. -/
theorem c3_letterbox_amended_witness :
    (letterbox pointResample ⟨4, 2, fun _ _ => (9, 9, 9)⟩ 8 8).px 0 7 = black := by
  have h := c3_letterbox_amended pointResample pointResample_spec
    ⟨4, 2, fun _ _ => (9, 9, 9)⟩ 8 8 (by decide) (by decide)
  refine h.2.2 0 7 (by decide) (by decide) ?_
  rw [show newDims 4 2 8 8 = (8, 4) from by
    rw [newDims_eq 4 2 8 8 (by decide)]; decide]
  decide

/-- C4 counterexample: the drawn dimensions (401, 401) are reachable (a 1x1
image at target 100x401), and there the paste offset computed by Python floor
division is -151, while integer division truncating toward zero gives -150. -/
theorem c4_counterexample :
    newDims 1 1 100 401 = (401, 401) ∧
    pastePos 100 401 401 401 = (-151, 0) ∧
    ((100 : Int) - 401).tdiv 2 = -150 := by
  refine ⟨?_, by decide, by decide⟩
  rw [newDims_eq 1 1 100 401 (by decide)]
  decide

/-- C4 amended: the paste offset is `((W - nw) // 2, (H - nh) // 2)` with
Python floor division; whenever the drawn content fits the frame
(`nw ≤ W` and `nh ≤ H`) the numerators are non-negative and floor division
coincides with division truncating toward zero, as the claim states. -/
theorem c4_offset_amended (W H nw nh : Nat) (h1 : nw ≤ W) (h2 : nh ≤ H) :
    pastePos W H nw nh =
      (((W : Int) - (nw : Int)).tdiv 2, ((H : Int) - (nh : Int)).tdiv 2) := by
  unfold pastePos
  have e1 : (0 : Int) ≤ (W : Int) - (nw : Int) := by
    have : (nw : Int) ≤ (W : Int) := by exact_mod_cast h1
    omega
  have e2 : (0 : Int) ≤ (H : Int) - (nh : Int) := by
    have : (nh : Int) ≤ (H : Int) := by exact_mod_cast h2
    omega
  rw [Int.fdiv_eq_tdiv e1 (by decide), Int.fdiv_eq_tdiv e2 (by decide)]

/-- C4 witness: a 4x4 drawing centered on a 10x10 frame sits at offset (3, 3)
under both division conventions. -/
theorem c4_offset_amended_witness :
    pastePos 10 10 4 4 =
      (((10 : Int) - (4 : Int)).tdiv 2, ((10 : Int) - (4 : Int)).tdiv 2) :=
  c4_offset_amended 10 10 4 4 (by decide) (by decide)

/-- Inserting with `insertByTime` permutes to consing. -/
theorem insertByTime_perm (x : String × Nat) (l : List (String × Nat)) :
    List.Perm (insertByTime x l) (x :: l) := by
  induction l with
  | nil => exact List.Perm.refl _
  | cons y ys ih =>
    unfold insertByTime
    by_cases hcmp : y.2 < x.2
    · rw [if_pos hcmp]
      exact (ih.cons y).trans (List.Perm.swap x y ys)
    · rw [if_neg hcmp]

/-- Inserting into a list sorted ascending by timestamp keeps it sorted. -/
theorem insertByTime_sorted (x : String × Nat) (l : List (String × Nat))
    (h : l.Pairwise (fun a b => a.2 ≤ b.2)) :
    (insertByTime x l).Pairwise (fun a b => a.2 ≤ b.2) := by
  induction l with
  | nil => simp [insertByTime]
  | cons y ys ih =>
    rcases List.pairwise_cons.mp h with ⟨hy, hys⟩
    unfold insertByTime
    by_cases hcmp : y.2 < x.2
    · rw [if_pos hcmp]
      refine List.pairwise_cons.mpr ⟨?_, ih hys⟩
      intro z hz
      rcases List.mem_cons.mp ((insertByTime_perm x ys).mem_iff.mp hz) with
        hzx | hzys
      · rw [hzx]; omega
      · exact hy z hzys
    · rw [if_neg hcmp]
      refine List.pairwise_cons.mpr ⟨?_, h⟩
      intro z hz
      rcases List.mem_cons.mp hz with hzy | hzys
      · rw [hzy]; omega
      · exact le_trans (by omega) (hy z hzys)

/-- Filtering for one timestamp commutes with stable insertion: the inserted
element lands in front of every already-present element bearing the same
timestamp. -/
theorem filter_insertByTime (x : String × Nat) (l : List (String × Nat))
    (t : Nat) :
    (insertByTime x l).filter (fun p => p.2 == t) =
      (if x.2 == t then [x] else []) ++ l.filter (fun p => p.2 == t) := by
  induction l with
  | nil => simp [insertByTime, List.filter_cons]
  | cons y ys ih =>
    unfold insertByTime
    by_cases hcmp : y.2 < x.2
    · rw [if_pos hcmp, List.filter_cons, List.filter_cons, ih]
      by_cases hx : x.2 = t
      · have hy : ¬ y.2 = t := by omega
        simp [hx, hy]
      · simp [hx]
    · rw [if_neg hcmp, List.filter_cons, List.filter_cons]
      by_cases hx : x.2 = t <;> simp [hx]

/-- The model sort is a permutation of its input. -/
theorem sortByTime_perm (l : List (String × Nat)) : List.Perm (sortByTime l) l := by
  induction l with
  | nil => exact List.Perm.refl _
  | cons x xs ih =>
    exact (insertByTime_perm x (sortByTime xs)).trans (ih.cons x)

/-- The model sort produces a list ascending by timestamp. -/
theorem sortByTime_sorted (l : List (String × Nat)) :
    (sortByTime l).Pairwise (fun a b => a.2 ≤ b.2) := by
  induction l with
  | nil => exact List.Pairwise.nil
  | cons x xs ih => exact insertByTime_sorted x (sortByTime xs) ih

/-- The model sort is stable: restricted to any single timestamp, the sorted
output lists the entries exactly in input order. -/
theorem sortByTime_stable (l : List (String × Nat)) (t : Nat) :
    (sortByTime l).filter (fun p => p.2 == t) =
      l.filter (fun p => p.2 == t) := by
  induction l with
  | nil => rfl
  | cons x xs ih =>
    show (insertByTime x (sortByTime xs)).filter _ = _
    rw [filter_insertByTime, ih, List.filter_cons]
    by_cases hx : x.2 = t <;> simp [hx]

/-- C5 confirmed: the Ordering stage (`image_files.sort(key=lambda x: x[1])`,
modelled by the stable sort `sortByTime`) returns a permutation of the
discovered timestamped list that is sorted ascending by timestamp, and for
each fixed timestamp the entries appear in exactly their discovery order
(stability), so two entries with equal timestamps keep their relative
discovery order. -/
theorem c5_ordering_stable_sort (l : List (String × Nat)) :
    List.Perm (sortByTime l) l ∧
    (sortByTime l).Pairwise (fun a b => a.2 ≤ b.2) ∧
    ∀ t : Nat, (sortByTime l).filter (fun p => p.2 == t) =
      l.filter (fun p => p.2 == t) :=
  ⟨sortByTime_perm l, sortByTime_sorted l, sortByTime_stable l⟩

/-- Folding the progress-reporting scan accumulates exactly the matched paths
of the walked directories, in walk order. -/
theorem vfp_scan_foldl (ts : List (String × List String)) (f : Nat)
    (acc : List String) (sn : List (Nat × Nat)) :
    ((ts.foldl Vfp.scanStep (f, acc, sn)).2.1) = acc ++ ts.flatMap matchedIn := by
  induction ts generalizing f acc sn with
  | nil => simp
  | cons t ts ih =>
    rw [List.foldl_cons, List.flatMap_cons]
    rw [show Vfp.scanStep (f, acc, sn) t =
      (f + 1, acc ++ matchedIn t,
        sn ++ [(f + 1, (acc ++ matchedIn t).length)]) from rfl]
    rw [ih]
    simp [List.append_assoc]

/-- Both modules discover exactly the same ordered path list. -/
theorem vfp_find_images_paths (root : String) (es : List Entry) :
    (Vfp.find_images root es).1 = Imgg.find_images root es := by
  unfold Vfp.find_images Imgg.find_images
  rw [vfp_scan_foldl]
  simp

/-- C10 confirmed: Discovery's filter is a pure lowercase-suffix test over
every file found by the walk — `find_images` equals the unfiltered walk
filtered by `isImageName` on the bare file name — and a file whose entire
name is one of the four suffixes (no stem, hence no extension in the
stem/extension sense) still matches, while a name merely containing a
suffix does not. -/
theorem c10_suffix_filter (root : String) (es : List Entry) :
    (Imgg.find_images root es =
      (allFilesUnder root es).filterMap fun pr =>
        if isImageName pr.2 then some (joinPath pr.1 pr.2) else none) ∧
    (Vfp.find_images root es).1 = Imgg.find_images root es ∧
    isImageName ".png" = true ∧
    isImageName "Holiday.JPeG" = true ∧
    isImageName "archive.png.txt" = false := by
  refine ⟨?_, vfp_find_images_paths root es, by decide, by decide, by decide⟩
  unfold Imgg.find_images allFilesUnder
  rw [List.filterMap_flatMap]
  simp only [List.filterMap_map]
  rfl

/-- C9 confirmed: on every environment and configuration the two
`create_video_from_images` entry points return the same outcome, assemble the
same ordered frame sequence, and discover the same path list; the
progress-reporting variant differs only in the snapshots it additionally
emits during Discovery. -/
theorem c9_pipelines_agree (env : Env) (res : List Int) (ext : String) :
    Vfp.create_video_from_images env res ext =
      Imgg.create_video_from_images env res ext ∧
    Vfp.framesOf env res = Imgg.framesOf env res ∧
    (Vfp.find_images env.rootPath env.tree).1 =
      Imgg.find_images env.rootPath env.tree := by
  refine ⟨?_, ?_, vfp_find_images_paths _ _⟩
  · unfold Vfp.create_video_from_images Imgg.create_video_from_images
    rw [vfp_find_images_paths]
  · unfold Vfp.framesOf Imgg.framesOf
    rw [vfp_find_images_paths]

/-- C7 confirmed: when the timestamped list left after extension filtering
and timestamp-read skipping is empty, the run ends at the no-images branch:
outcome `noImagesFound`, the encoder is never invoked, nothing is written. -/
theorem c7_empty_no_encoder (env : Env) (res : List Int) (ext : String)
    (h : timestamped env (Imgg.find_images env.rootPath env.tree) = []) :
    Imgg.create_video_from_images env res ext =
      ⟨.noImagesFound, false, none⟩ := by
  unfold Imgg.create_video_from_images
  simp [h]

/-- Environment with an image-free directory used to witness C7. -/
def c7Env : Env :=
  { rootPath := "r", tree := [Entry.file "notes.txt"], isDir := true,
    mtime := fun _ => some 0, decode := fun _ => none,
    resample := pointResample, savePath := some "out.mp4", encodeOk := true }

/-- C7 witness: a tree holding only a text file produces `noImagesFound` with
no encoder call. -/
theorem c7_empty_no_encoder_witness :
    Imgg.create_video_from_images c7Env [640, 480] ".mp4" =
      ⟨.noImagesFound, false, none⟩ := by
  refine c7_empty_no_encoder c7Env [640, 480] ".mp4" ?_
  rw [show Imgg.find_images c7Env.rootPath c7Env.tree = [] from by
    unfold Imgg.find_images
    rw [walkTriples]
    simp +decide [subdirsOf, fileNames, matchedIn, c7Env]]
  rfl

/-- A member of the transform worklist whose decode raises makes the whole
`try`-wrapped loop raise. -/
theorem transformAll_none_of_mem (env : Env) (res : List Int)
    (l : List (String × Nat)) (p : String) (t : Nat)
    (hmem : (p, t) ∈ l) (hdec : env.decode p = none) :
    transformAll env res l = none := by
  induction l with
  | nil => cases hmem
  | cons pt rest ih =>
    unfold transformAll
    rcases List.mem_cons.mp hmem with heq | hmem2
    · rw [← heq]
      unfold transformFile
      rw [hdec]
    · cases hfile : transformFile env res pt.1 with
      | none => rfl
      | some f => rw [ih hmem2]; rfl

/-- C6 amended: a file of the ordered worklist whose decode fails makes the
whole run abort with `Failure`: the `try` of the source wraps the entire
transform loop, so the remaining files are not processed, the encoder is
never invoked and nothing is written; the `noImagesFound` outcome is decided
earlier and never results from decode failures. -/
theorem c6_decode_failure_aborts (env : Env) (res : List Int) (ext : String)
    (p : String) (t : Nat)
    (hmem : (p, t) ∈ sortByTime
      (timestamped env (Imgg.find_images env.rootPath env.tree)))
    (hdec : env.decode p = none) :
    Imgg.create_video_from_images env res ext = ⟨.failure, false, none⟩ := by
  have hmem0 : (p, t) ∈ timestamped env
      (Imgg.find_images env.rootPath env.tree) :=
    (sortByTime_perm _).mem_iff.mp hmem
  have hne : (timestamped env
      (Imgg.find_images env.rootPath env.tree)).isEmpty = false :=
    List.isEmpty_eq_false.mpr (List.ne_nil_of_mem hmem0)
  have hnone := transformAll_none_of_mem env res _ p t hmem hdec
  simp only [Imgg.create_video_from_images]
  rw [hne, hnone]
  simp

/-- Environment whose first image in discovery order fails to decode while
the second would decode fine, used for C6. -/
def c6Env : Env :=
  { rootPath := "r",
    tree := [Entry.file "a.png", Entry.file "b.png"],
    isDir := true,
    mtime := fun _ => some 0,
    decode := fun p => if p = "r/b.png" then some ⟨1, 1, fun _ _ => black⟩ else none,
    resample := pointResample,
    savePath := some "out.mp4",
    encodeOk := true }

/-- On `c6Env` the ordered worklist holds both files, the undecodable one first. -/
theorem c6Env_sorted :
    sortByTime (timestamped c6Env
      (Imgg.find_images c6Env.rootPath c6Env.tree)) =
      [("r/a.png", 0), ("r/b.png", 0)] := by
  rw [show Imgg.find_images c6Env.rootPath c6Env.tree =
      ["r/a.png", "r/b.png"] from by
    unfold Imgg.find_images
    rw [walkTriples]
    simp +decide [subdirsOf, fileNames, matchedIn, c6Env, joinPath]]
  rfl

/-- C6 counterexample: in `c6Env` the second file decodes fine and a save
path is supplied, yet the run ends in `Failure` with the encoder never
invoked — the undecodable first file aborted the whole batch instead of
being skipped. -/
theorem c6_counterexample :
    c6Env.decode "r/b.png" ≠ none ∧
    Imgg.create_video_from_images c6Env [2, 2] ".mp4" =
      ⟨.failure, false, none⟩ := by
  refine ⟨by simp [c6Env], ?_⟩
  unfold Imgg.create_video_from_images
  rw [show Imgg.find_images c6Env.rootPath c6Env.tree =
      ["r/a.png", "r/b.png"] from by
    unfold Imgg.find_images
    rw [walkTriples]
    simp +decide [subdirsOf, fileNames, matchedIn, c6Env, joinPath]]
  rfl

/-- C6 witness: the amended abort behavior at the concrete environment. -/
theorem c6_decode_failure_aborts_witness :
    Imgg.create_video_from_images c6Env [2, 2] ".mp4" =
      ⟨.failure, false, none⟩ := by
  refine c6_decode_failure_aborts c6Env [2, 2] ".mp4" "r/a.png" 0 ?_ ?_
  · rw [c6Env_sorted]
    exact List.mem_cons_self _ _
  · simp [c6Env]

/-- C8 amended: a resolution string is rejected with the resolution-format
error — before any Discovery work — exactly when some `'x'`-separated field
fails to parse as an integer; strings with zero or negative dimensions, and
strings without `'x'` whose single field is numeric, pass the gate and reach
the pipeline. -/
theorem c8_resolution_gate (env : Env) (s ext : String)
    (h : parseResolution s = none) :
    start_conversion env s ext = .invalidResolution ∧
    parseResolution "0x0" = some [0, 0] ∧
    parseResolution "-1920x1080" = some [-1920, 1080] ∧
    parseResolution "1920" = some [1920] := by
  refine ⟨?_, by decide, by decide, by decide⟩
  unfold start_conversion
  rw [h]

/-- Environment with an empty root directory, used for C8. -/
def c8Env : Env :=
  { rootPath := "r", tree := [], isDir := true,
    mtime := fun _ => some 0, decode := fun _ => none,
    resample := pointResample, savePath := some "out.mp4", encodeOk := true }

/-- C8 counterexample: the malformed-by-the-claim resolution "0x0" (zero
dimensions) parses successfully, so `start_conversion` does not report the
resolution error and instead runs the pipeline (which here terminates with
`noImagesFound` on the empty tree). -/
theorem c8_counterexample :
    parseResolution "0x0" = some [0, 0] ∧
    start_conversion c8Env "0x0" ".mp4" =
      .ran ⟨.noImagesFound, false, none⟩ := by
  refine ⟨by decide, ?_⟩
  have hrun : Imgg.create_video_from_images c8Env [0, 0] ".mp4" =
      ⟨.noImagesFound, false, none⟩ := by
    simp only [Imgg.create_video_from_images]
    rw [show Imgg.find_images c8Env.rootPath c8Env.tree = [] from by
      unfold Imgg.find_images
      rw [walkTriples]
      simp [subdirsOf, fileNames, matchedIn, c8Env]]
    rfl
  unfold start_conversion
  rw [show parseResolution "0x0" = some [0, 0] from by decide]
  simp [show c8Env.isDir = true from rfl, hrun]

/-- C8 witness: a non-numeric resolution string is rejected before Discovery. -/
theorem c8_resolution_gate_witness :
    start_conversion c8Env "abc" ".mp4" = .invalidResolution :=
  (c8_resolution_gate c8Env "abc" ".mp4" (by decide)).1

-- Concrete sanity checks of the embedding on small inputs.
example : ((-301 : Int)).fdiv 2 = -151 := by decide
example : ((-301 : Int)).tdiv 2 = -150 := by decide
example : parseResolution "0x0" = some [0, 0] := by decide
example : parseResolution "1920" = some [1920] := by decide
example : parseResolution "1920x1080" = some [1920, 1080] := by decide
example : parseResolution "-5x10" = some [-5, 10] := by decide
example : parseResolution "abc" = none := by decide
example : parseResolution "" = none := by decide
example : parseResolution "x" = none := by decide
example : isImageName ".png" = true := by decide
example : isImageName "A.JPG" = true := by decide
example : isImageName "a.bmp" = false := by decide
example : newDims 1 1 2 1 = (1, 1) := by
  rw [newDims_eq 1 1 2 1 (by decide)]; decide
example : newDims 1 1 100 400 = (400, 400) := by
  rw [newDims_eq 1 1 100 400 (by decide)]; decide
example : newDims 3 2 10 7 = (10, 6) := by
  rw [newDims_eq 3 2 10 7 (by decide)]; decide
example : newDims 2 3 10 7 = (4, 7) := by
  rw [newDims_eq 2 3 10 7 (by decide)]; decide
